import Mathlib

/-!
# Verification of the filetransfer_go core

A shallow embedding, in Lean 4, of the parts of the `filetransfer_go`
repository that its design claims talk about:

* the receiver-side framing parser `WebRTCReceiver.handleMessage`
  (three-state machine: awaiting length prefix / awaiting metadata body /
  receiving payload);
* the sender-side framing `WebRTCSender.sendFile` (4-byte big-endian
  length, metadata body, payload chunks of at most 32KB);
* the signaling broker `signaling_server.go` (room registry, per-client
  dispatch of `create_room` / `join_room` / `offer` / `answer`,
  broadcasting, and `leaveRoom`).

Go byte slices are modelled as `List Nat` (each element a byte value),
Go maps as association lists, room pointers as references (`Nat`) into a
room store, and `int64` counters as `Int` (no transfer in scope can
reach `2^63` bytes; theorems that quantify over arbitrary contents carry
an explicit bound where it matters).  JSON (de)serialization of the file
metadata is abstracted as a `decode` parameter, since its content is
irrelevant to the framing claims.  All definitions are executable.
-/

/-! ## Bytes and the 4-byte big-endian length prefix -/

/-- `binary.BigEndian.PutUint32`: the 4 big-endian bytes of `n` (as `Nat`s). -/
def putUint32BE (n : Nat) : List Nat :=
  [n / 16777216 % 256, n / 65536 % 256, n / 256 % 256, n % 256]

/-- `binary.BigEndian.Uint32(data[:4])`: read a big-endian `uint32` from the
first four bytes of `bs`. -/
def beUint32 (bs : List Nat) : Nat :=
  bs.getD 0 0 * 16777216 + bs.getD 1 0 * 65536 + bs.getD 2 0 * 256 + bs.getD 3 0

theorem beUint32_putUint32BE (n : Nat) (rest : List Nat) (h : n < 4294967296) :
    beUint32 (putUint32BE n ++ rest) = n := by
  simp [beUint32, putUint32BE]
  omega

theorem putUint32BE_length (n : Nat) : (putUint32BE n).length = 4 := rfl

/-! ## FileMetadata (common.go) -/

/-- `FileMetadata` from `common.go`: `fileName` and `fileSize int64`. -/
structure FileMetadata where
  fileName : String
  fileSize : Int
deriving Repr, DecidableEq

/-! ## The receiver-side parser (`WebRTCReceiver.handleMessage`)

The Go receiver keeps mutable fields
`state / metadataLen / metadataBuf / metadata / file / totalReceived` and a
data channel `dc`.  We model the destination file by the byte list written so
far plus `fileOpen` (`r.file != nil`) and `fileClosed` flags, and the
acknowledgments sent on the data channel by the list `acks`. -/

structure RecvState where
  state : Nat
  metadataLen : Nat
  metadataBuf : List Nat
  metadata : Option FileMetadata
  fileOpen : Bool
  fileClosed : Bool
  fileContent : List Nat
  totalReceived : Int
  dcOpen : Bool
  acks : List String
deriving Repr, DecidableEq

/-- The state installed in `pc.OnDataChannel` before any message arrives:
`r.state = 0`, nothing buffered, no file, data channel open. -/
def initRecvState : RecvState :=
  { state := 0, metadataLen := 0, metadataBuf := [], metadata := none,
    fileOpen := false, fileClosed := false, fileContent := [],
    totalReceived := 0, dcOpen := true, acks := [] }

/-- `json.Marshal(map[string]string\x7b"type": "file_received"\x7d)`. -/
def ackMessage : String := "\x7b\"type\":\"file_received\"\x7d"

namespace WebRTCReceiver

/-- `case 2` of `WebRTCReceiver.handleMessage`: receiving file data.
Writes every byte of `data` to the destination, accumulates
`totalReceived`, and on reaching a positive declared `FileSize` closes the
file and sends the acknowledgment over the (still open) data channel.
A write to a closed (or never-created) file is the I/O error case. -/
def handleState2 (r : RecvState) (data : List Nat) : RecvState × Option String :=
  if !r.fileOpen then (r, some "文件未创建")
  else if r.fileClosed then (r, some "写入文件失败")
  else
    let r1 := { r with fileContent := r.fileContent ++ data,
                       totalReceived := r.totalReceived + data.length }
    match r1.metadata with
    | some md =>
      if 0 < md.fileSize then
        if md.fileSize ≤ r1.totalReceived then
          ({ r1 with fileClosed := true,
                     acks := if r1.dcOpen then r1.acks ++ [ackMessage] else r1.acks },
           none)
        else (r1, none)
      else (r1, none)
    | none => (r1, none)

/-- `case 1` of `WebRTCReceiver.handleMessage`: accumulating the metadata
body.  When the declared length is reached the buffered bytes are decoded,
the destination file is created, and any surplus bytes are re-fed into the
payload state (the recursive call lands in `case 2`, i.e. `handleState2`). -/
def handleState1 (decode : List Nat → Option FileMetadata)
    (r : RecvState) (data : List Nat) : RecvState × Option String :=
  let buf := r.metadataBuf ++ data
  let r1 := { r with metadataBuf := buf }
  if r.metadataLen ≤ buf.length then
    match decode (buf.take r.metadataLen) with
    | none => (r1, some "解析元数据失败")
    | some md =>
      let r2 := { r1 with metadata := some md, fileOpen := true,
                          fileClosed := false, fileContent := [], state := 2 }
      if r.metadataLen < buf.length then
        handleState2 r2 (buf.drop r.metadataLen)
      else (r2, none)
  else (r1, none)

/-- `case 0` of `WebRTCReceiver.handleMessage`: awaiting the 4-byte length
prefix.  If the message holds at least 4 bytes the prefix is consumed and
any surplus is re-fed (the recursive call lands in `case 1`, i.e.
`handleState1`); a shorter message falls through the `if` and is dropped. -/
def handleState0 (decode : List Nat → Option FileMetadata)
    (r : RecvState) (data : List Nat) : RecvState × Option String :=
  if 4 ≤ data.length then
    let r1 := { r with metadataLen := beUint32 data, metadataBuf := [], state := 1 }
    if 4 < data.length then handleState1 decode r1 (data.drop 4)
    else (r1, none)
  else (r, none)

/-- `WebRTCReceiver.handleMessage`, with the Go `switch r.state` dispatch;
each arm's recursive self-call is resolved to the arm it re-enters (the
state field at the call site is `1` resp. `2`), which keeps the definition
kernel-computable.  `handleMessageRec` below is the verbatim recursive
form, proved equal. -/
def handleMessage (decode : List Nat → Option FileMetadata)
    (r : RecvState) (data : List Nat) : RecvState × Option String :=
  if r.state = 0 then handleState0 decode r data
  else if r.state = 1 then handleState1 decode r data
  else handleState2 r data

/-- The verbatim self-recursive form of `WebRTCReceiver.handleMessage`
(the Go function re-invokes itself on leftover bytes).  Recursion
terminates because each self-call is made after `r.state` has advanced. -/
def handleMessageRec (decode : List Nat → Option FileMetadata)
    (r : RecvState) (data : List Nat) : RecvState × Option String :=
  if r.state = 0 then
    if 4 ≤ data.length then
      let r1 := { r with metadataLen := beUint32 data, metadataBuf := [], state := 1 }
      if 4 < data.length then handleMessageRec decode r1 (data.drop 4)
      else (r1, none)
    else (r, none)
  else if r.state = 1 then
    let buf := r.metadataBuf ++ data
    let r1 := { r with metadataBuf := buf }
    if r.metadataLen ≤ buf.length then
      match decode (buf.take r.metadataLen) with
      | none => (r1, some "解析元数据失败")
      | some md =>
        let r2 := { r1 with metadata := some md, fileOpen := true,
                            fileClosed := false, fileContent := [], state := 2 }
        if r.metadataLen < buf.length then
          handleMessageRec decode r2 (buf.drop r.metadataLen)
        else (r2, none)
    else (r1, none)
  else handleState2 r data
termination_by 2 - r.state
decreasing_by
  · omega
  · omega

theorem handleMessageRec_eq (decode : List Nat → Option FileMetadata)
    (r : RecvState) (data : List Nat) :
    handleMessageRec decode r data = handleMessage decode r data := by
  rw [handleMessageRec, handleMessage]
  by_cases h0 : r.state = 0
  · rw [if_pos h0, if_pos h0, handleState0]
    split
    · split
      · rw [handleMessageRec_eq decode _ (data.drop 4)]; rfl
      · rfl
    · rfl
  · rw [if_neg h0, if_neg h0]
    by_cases h1 : r.state = 1
    · rw [if_pos h1, if_pos h1, handleState1]
      dsimp only
      split
      · split
        · rfl
        · split
          · rw [handleMessageRec_eq decode _ ((r.metadataBuf ++ data).drop r.metadataLen)]
            rfl
          · rfl
      · rfl
    · rw [if_neg h1, if_neg h1]
termination_by 2 - r.state
decreasing_by
  · omega
  · omega

/-- Feeding a sequence of low-level messages through the parser in order.
The Go `OnMessage` callback logs a returned error and keeps consuming
messages, so the pump only threads the state. -/
def feedAll (decode : List Nat → Option FileMetadata)
    (r : RecvState) (msgs : List (List Nat)) : RecvState :=
  msgs.foldl (fun s m => (handleMessage decode s m).1) r

end WebRTCReceiver

/-! ## The sender-side framing (`WebRTCSender.sendFile`) -/

namespace WebRTCSender

/-- `const maxChunkSize = 32 * 1024` in `sendFile`. -/
def maxChunkSize : Nat := 32 * 1024

/-- The payload messages produced by `sendFile`'s read loop: each
`file.Read` into the 32KB buffer returns the next `min 32768 remaining`
bytes of a regular file and the inner loop emits them as one channel
message (`chunkSize = n ≤ maxChunkSize`, so the inner loop runs once);
at end of file the loop breaks. -/
def payloadChunks (content : List Nat) : List (List Nat) :=
  if content = [] then []
  else content.take maxChunkSize :: payloadChunks (content.drop maxChunkSize)
termination_by content.length
decreasing_by
  rename_i h
  have hc : 0 < content.length := List.length_pos.mpr h
  simp only [List.length_drop, maxChunkSize]
  omega

/-- The full message sequence of `sendFile`: the 4-byte big-endian length
of the serialized metadata (`s.dc.Send(lenBuf)`), the metadata body
(`s.dc.Send(metadataJSON)`), then the payload chunks in file order. -/
def sendFile (metadataJSON : List Nat) (content : List Nat) : List (List Nat) :=
  putUint32BE metadataJSON.length :: metadataJSON :: payloadChunks content

end WebRTCSender

/-! ## The signaling broker (`cmd/signaling/signaling_server.go`)

Clients are identified by `Nat` ids.  A Go `*Room` pointer is modelled as a
reference (`Nat`) into the server's room store `roomData`; the registry
`s.rooms map[string]*Room` is an association list from room id to room
reference, and a room's member set `map[*Client]bool` is a duplicate-free
list of client ids.  The outbound queue `c.send` is modelled by the list of
`(recipient, message)` pairs a dispatch emits. -/

/-- Association-list lookup (Go map read; absent key reads the zero value
`nil`, here `none`). -/
def getA {α β : Type} [DecidableEq α] : List (α × β) → α → Option β
  | [], _ => none
  | (k, v) :: t, k' => if k = k' then some v else getA t k'

/-- Association-list write (Go map assignment). -/
def setA {α β : Type} [DecidableEq α] : List (α × β) → α → β → List (α × β)
  | [], k, v => [(k, v)]
  | (k', v') :: t, k, v => if k' = k then (k, v) :: t else (k', v') :: setA t k v

/-- Association-list delete (Go `delete`). -/
def delA {α β : Type} [DecidableEq α] : List (α × β) → α → List (α × β)
  | [], _ => []
  | (k', v') :: t, k => if k' = k then delA t k else (k', v') :: delA t k

/-- Set-insert into a member list (Go `room.clients[c] = true`). -/
def insertC (l : List Nat) (c : Nat) : List Nat :=
  if c ∈ l then l else l ++ [c]

/-- The broker's `Message` struct (only the fields the broker itself reads
or writes). -/
structure Msg where
  type : String
  roomID : String := ""
  fileID : String := ""
  sdp : String := ""
  error : String := ""
deriving Repr, DecidableEq

/-- A `Room`: its id string and member set (`createdAt` is never read). -/
structure SRoom where
  id : String
  clients : List Nat
deriving Repr, DecidableEq

/-- The mutable per-`Client` fields the dispatch logic reads or writes:
`c.room` (a room reference or `nil`) and `c.clientType`. -/
structure SClient where
  room : Option Nat
  clientType : String
deriving Repr, DecidableEq

/-- The whole broker state: the registry (`s.rooms`), the room store with
its next fresh reference, and every client's `room`/`clientType` fields. -/
structure SState where
  registry : List (String × Nat)
  roomData : List (Nat × SRoom)
  nextRef : Nat
  clients : List (Nat × SClient)
deriving Repr, DecidableEq

/-- A freshly started server (`NewSignalingServer`): no rooms; a client not
yet seen has the zero-valued fields of `handleWebSocket`'s `&Client{...}`. -/
def initSState : SState := ⟨[], [], 0, []⟩

/-- Read a client's fields (zero value for a never-written client). -/
def clientOf (s : SState) (c : Nat) : SClient :=
  (getA s.clients c).getD ⟨none, ""⟩

/-- The member list of the room behind reference `ρ`. -/
def roomClients (s : SState) (ρ : Nat) : List Nat :=
  ((getA s.roomData ρ).map SRoom.clients).getD []

/-- `c.sendError(e)` produces this message. -/
def errMsg (e : String) : Msg := { type := "error", error := e }

namespace SignalingServer

/-- `SignalingServer.GetRoom`: registry lookup, `nil` when absent. -/
def GetRoom (s : SState) (roomID : String) : Option Nat :=
  getA s.registry roomID

/-- `SignalingServer.NewRoom`: allocate a room with no clients and register
it under `roomID`; returns the new room's reference. -/
def NewRoom (s : SState) (roomID : String) : SState × Nat :=
  ({ s with registry := setA s.registry roomID s.nextRef,
            roomData := setA s.roomData s.nextRef ⟨roomID, []⟩,
            nextRef := s.nextRef + 1 }, s.nextRef)

/-- `SignalingServer.RemoveRoom`: delete the registry entry. -/
def RemoveRoom (s : SState) (roomID : String) : SState :=
  { s with registry := delA s.registry roomID }

end SignalingServer

namespace Client

/-- Insert client `c` into the member set of the room behind `ρ`
(`room.clients[c] = true`). -/
def addToRoom (s : SState) (ρ : Nat) (c : Nat) : SState :=
  match getA s.roomData ρ with
  | none => s
  | some room => { s with roomData := setA s.roomData ρ ⟨room.id, insertC room.clients c⟩ }

/-- `Client.broadcastToRoom`: send `msg` to every member of `c`'s current
room except `exclude`.  (`c.room == nil` yields no sends.) -/
def broadcastToRoom (s : SState) (c : Nat) (msg : Msg) (exclude : Nat) :
    List (Nat × Msg) :=
  match (clientOf s c).room with
  | none => []
  | some ρ => ((roomClients s ρ).filter (fun x => x ≠ exclude)).map (fun x => (x, msg))

/-- `Client.handleCreateRoom`. -/
def handleCreateRoom (s : SState) (c : Nat) (msg : Msg) : SState × List (Nat × Msg) :=
  if msg.roomID = "" then (s, [(c, errMsg "房间ID不能为空")])
  else
    match SignalingServer.GetRoom s msg.roomID with
    | some _ => (s, [(c, errMsg "房间已存在")])
    | none =>
      let (s1, ρ) := SignalingServer.NewRoom s msg.roomID
      let s2 := { s1 with clients := setA s1.clients c ⟨some ρ, "sender"⟩ }
      let s3 := addToRoom s2 ρ c
      (s3, [(c, { type := "room_created", roomID := msg.roomID })])

/-- `Client.handleJoinRoom`. -/
def handleJoinRoom (s : SState) (c : Nat) (msg : Msg) : SState × List (Nat × Msg) :=
  if msg.roomID = "" then (s, [(c, errMsg "房间ID不能为空")])
  else
    match SignalingServer.GetRoom s msg.roomID with
    | none => (s, [(c, errMsg "房间不存在")])
    | some ρ =>
      let s1 := { s with clients := setA s.clients c ⟨some ρ, "receiver"⟩ }
      let s2 := addToRoom s1 ρ c
      (s2, (c, { type := "room_joined", roomID := msg.roomID }) ::
        broadcastToRoom s2 c { type := "peer_joined", roomID := msg.roomID } c)

/-- `Client.handleOffer`. -/
def handleOffer (s : SState) (c : Nat) (msg : Msg) : SState × List (Nat × Msg) :=
  match (clientOf s c).room with
  | none => (s, [(c, errMsg "未加入房间")])
  | some _ =>
    if (clientOf s c).clientType ≠ "sender" then
      (s, [(c, errMsg "只有发送端可以发送Offer")])
    else
      (s, broadcastToRoom s c
        { type := "offer", roomID := msg.roomID, fileID := msg.fileID, sdp := msg.sdp } c)

/-- `Client.handleAnswer`. -/
def handleAnswer (s : SState) (c : Nat) (msg : Msg) : SState × List (Nat × Msg) :=
  match (clientOf s c).room with
  | none => (s, [(c, errMsg "未加入房间")])
  | some _ =>
    if (clientOf s c).clientType ≠ "receiver" then
      (s, [(c, errMsg "只有接收端可以发送Answer")])
    else
      (s, broadcastToRoom s c
        { type := "answer", roomID := msg.roomID, sdp := msg.sdp } c)

/-- `Client.handleMessage`: the `switch msg.Type` dispatch (the JSON layer
is abstracted away: a message that failed to unmarshal is out of scope of
the claims below). -/
def handleMessage (s : SState) (c : Nat) (msg : Msg) : SState × List (Nat × Msg) :=
  if msg.type = "create_room" then handleCreateRoom s c msg
  else if msg.type = "join_room" then handleJoinRoom s c msg
  else if msg.type = "offer" then handleOffer s c msg
  else if msg.type = "answer" then handleAnswer s c msg
  else (s, [(c, errMsg ("未知的消息类型: " ++ msg.type))])

/-- `Client.leaveRoom`: remove `c` from its room; if the room became empty,
remove the room's id from the registry, otherwise broadcast `peer_left`;
finally clear `c.room`. -/
def leaveRoom (s : SState) (c : Nat) : SState × List (Nat × Msg) :=
  match (clientOf s c).room with
  | none => (s, [])
  | some ρ =>
    match getA s.roomData ρ with
    | none => ({ s with clients := setA s.clients c ⟨none, (clientOf s c).clientType⟩ }, [])
    | some room =>
      let remaining := room.clients.filter (fun x => x ≠ c)
      let s1 := { s with roomData := setA s.roomData ρ ⟨room.id, remaining⟩ }
      if remaining.length = 0 then
        let s2 := SignalingServer.RemoveRoom s1 room.id
        ({ s2 with clients := setA s2.clients c ⟨none, (clientOf s c).clientType⟩ }, [])
      else
        let evs := broadcastToRoom s1 c { type := "peer_left", roomID := room.id } c
        ({ s1 with clients := setA s1.clients c ⟨none, (clientOf s c).clientType⟩ }, evs)

end Client

/-! ## Association-list lemmas -/

theorem getA_setA_self {α β : Type} [DecidableEq α] (l : List (α × β)) (k : α) (v : β) :
    getA (setA l k v) k = some v := by
  induction l with
  | nil => simp [getA, setA]
  | cons p t ih =>
    obtain ⟨k', v'⟩ := p
    by_cases h : k' = k
    · simp [getA, setA, h]
    · simp [getA, setA, h, ih]

theorem getA_setA_ne {α β : Type} [DecidableEq α] (l : List (α × β)) (k k' : α) (v : β)
    (h : k ≠ k') : getA (setA l k v) k' = getA l k' := by
  induction l with
  | nil => simp [getA, setA, h]
  | cons p t ih =>
    obtain ⟨k₀, v₀⟩ := p
    by_cases h0 : k₀ = k
    · subst h0
      simp [getA, setA, h]
    · simp only [setA, if_neg h0, getA]
      by_cases h1 : k₀ = k'
      · simp [h1]
      · simp [h1, ih]

theorem getA_delA_self {α β : Type} [DecidableEq α] (l : List (α × β)) (k : α) :
    getA (delA l k) k = none := by
  induction l with
  | nil => simp [getA, delA]
  | cons p t ih =>
    obtain ⟨k₀, v₀⟩ := p
    by_cases h0 : k₀ = k
    · simp [delA, h0, ih]
    · simp [delA, getA, h0, ih]

theorem mem_insertC (l : List Nat) (c x : Nat) :
    x ∈ insertC l c ↔ x ∈ l ∨ x = c := by
  unfold insertC
  by_cases h : c ∈ l
  · simp only [if_pos h]
    constructor
    · exact fun hx => Or.inl hx
    · rintro (hx | rfl)
      · exact hx
      · exact h
  · simp [if_neg h]

/-! ## Claim theorems: the signaling broker -/

/-- C3: a `create_room` dispatch for a still-registered id fails with the
duplicate-room error and leaves the whole server state (in particular the
registry) unchanged; `NewRoom` on a fresh id registers an empty room under
that id; and once the last member of a room leaves (which deletes the id
from the registry) a `create_room` with the same id succeeds again. -/
theorem createRoom_duplicate_fresh_reuse :
    (∀ (s : SState) (c : Nat) (m : Msg),
      m.type = "create_room" → m.roomID ≠ "" →
      (∃ ρ, SignalingServer.GetRoom s m.roomID = some ρ) →
      Client.handleMessage s c m = (s, [(c, errMsg "房间已存在")])) ∧
    (∀ (s : SState) (id : String),
      SignalingServer.GetRoom (SignalingServer.NewRoom s id).1 id = some s.nextRef ∧
      getA (SignalingServer.NewRoom s id).1.roomData s.nextRef = some ⟨id, []⟩) ∧
    (∀ (s : SState) (c c2 : Nat) (ρ : Nat) (room : SRoom) (m : Msg),
      (clientOf s c).room = some ρ →
      getA s.roomData ρ = some room →
      room.clients.filter (fun x => x ≠ c) = [] →
      room.id ≠ "" →
      m.type = "create_room" → m.roomID = room.id →
      SignalingServer.GetRoom (Client.leaveRoom s c).1 room.id = none ∧
      (Client.handleMessage (Client.leaveRoom s c).1 c2 m).2 =
        [(c2, { type := "room_created", roomID := room.id })]) := by
  refine ⟨?_, ?_, ?_⟩
  · intro s c m htype hne ⟨ρ, hρ⟩
    unfold Client.handleMessage Client.handleCreateRoom
    rw [htype]
    simp [hne, hρ]
  · intro s id
    constructor
    · unfold SignalingServer.GetRoom SignalingServer.NewRoom
      exact getA_setA_self _ _ _
    · unfold SignalingServer.NewRoom
      exact getA_setA_self _ _ _
  · intro s c c2 ρ room m hcr hroom hlast hne htype hmid
    have hleave : (Client.leaveRoom s c).1.registry = delA s.registry room.id ∧
        (Client.leaveRoom s c).1.nextRef = s.nextRef := by
      unfold Client.leaveRoom
      rw [hcr]
      simp only [hroom, SignalingServer.RemoveRoom]
      rw [hlast]
      simp
    have hget : SignalingServer.GetRoom (Client.leaveRoom s c).1 room.id = none := by
      unfold SignalingServer.GetRoom
      rw [hleave.1]
      exact getA_delA_self _ _
    refine ⟨hget, ?_⟩
    unfold Client.handleMessage Client.handleCreateRoom
    rw [htype, hmid]
    simp [hne, hget]

/-- Witness for C3: a concrete server with registered room `"a"` whose only
member is client `1`; client `2`'s duplicate `create_room` fails, and after
client `1` leaves, `create_room "a"` succeeds. -/
theorem createRoom_duplicate_fresh_reuse_witness :
    Client.handleMessage ⟨[("a", 0)], [(0, ⟨"a", [1]⟩)], 1, [(1, ⟨some 0, "sender"⟩)]⟩ 2
        { type := "create_room", roomID := "a" } =
      (⟨[("a", 0)], [(0, ⟨"a", [1]⟩)], 1, [(1, ⟨some 0, "sender"⟩)]⟩,
        [(2, errMsg "房间已存在")]) ∧
    SignalingServer.GetRoom
      (Client.leaveRoom ⟨[("a", 0)], [(0, ⟨"a", [1]⟩)], 1, [(1, ⟨some 0, "sender"⟩)]⟩ 1).1
      "a" = none ∧
    (Client.handleMessage
      (Client.leaveRoom ⟨[("a", 0)], [(0, ⟨"a", [1]⟩)], 1, [(1, ⟨some 0, "sender"⟩)]⟩ 1).1
      2 { type := "create_room", roomID := "a" }).2 =
      [(2, { type := "room_created", roomID := "a" })] := by
  refine ⟨?_, ?_, ?_⟩
  · exact createRoom_duplicate_fresh_reuse.1
      ⟨[("a", 0)], [(0, ⟨"a", [1]⟩)], 1, [(1, ⟨some 0, "sender"⟩)]⟩ 2
      { type := "create_room", roomID := "a" } rfl (by decide) ⟨0, rfl⟩
  · exact (createRoom_duplicate_fresh_reuse.2.2
      ⟨[("a", 0)], [(0, ⟨"a", [1]⟩)], 1, [(1, ⟨some 0, "sender"⟩)]⟩ 1 2 0 ⟨"a", [1]⟩
      { type := "create_room", roomID := "a" }
      rfl rfl (by decide) (by decide) rfl rfl).1
  · exact (createRoom_duplicate_fresh_reuse.2.2
      ⟨[("a", 0)], [(0, ⟨"a", [1]⟩)], 1, [(1, ⟨some 0, "sender"⟩)]⟩ 1 2 0 ⟨"a", [1]⟩
      { type := "create_room", roomID := "a" }
      rfl rfl (by decide) (by decide) rfl rfl).2

/-- C5 fails as stated on the empty room id: `""` is absent from the (empty)
registry, yet the reply to `join_room ""` is the invalid-room-id error, not
the room-not-found error. -/
theorem joinRoom_absent_counterexample :
    SignalingServer.GetRoom initSState "" = none ∧
    Client.handleMessage initSState 1 { type := "join_room", roomID := "" } =
      (initSState, [(1, errMsg "房间ID不能为空")]) ∧
    errMsg "房间ID不能为空" ≠ errMsg "房间不存在" := by
  refine ⟨rfl, rfl, ?_⟩
  decide

/-- C5 (amended): a `join_room` dispatch whose id is absent from the
registry replies with the room-not-found error — except for the empty id,
which replies with the invalid-room-id error — and in both cases the whole
server state (registry, rooms, and the joining connection's `room` and
`clientType`) is unchanged. -/
theorem joinRoom_absent_id (s : SState) (c : Nat) (m : Msg)
    (htype : m.type = "join_room")
    (habsent : SignalingServer.GetRoom s m.roomID = none) :
    Client.handleMessage s c m =
      (s, [(c, errMsg (if m.roomID = "" then "房间ID不能为空" else "房间不存在"))]) := by
  unfold Client.handleMessage Client.handleJoinRoom
  rw [htype]
  by_cases hid : m.roomID = ""
  · simp [hid]
  · simp [hid, habsent]

/-- Witness for the amended C5, at a server with one room `"a"` and the
absent id `"b"`. -/
theorem joinRoom_absent_id_witness :
    Client.handleMessage ⟨[("a", 0)], [(0, ⟨"a", [1]⟩)], 1, [(1, ⟨some 0, "sender"⟩)]⟩ 7
        { type := "join_room", roomID := "b" } =
      (⟨[("a", 0)], [(0, ⟨"a", [1]⟩)], 1, [(1, ⟨some 0, "sender"⟩)]⟩,
        [(7, errMsg "房间不存在")]) := by
  have h := joinRoom_absent_id
    ⟨[("a", 0)], [(0, ⟨"a", [1]⟩)], 1, [(1, ⟨some 0, "sender"⟩)]⟩ 7
    { type := "join_room", roomID := "b" } rfl rfl
  simpa using h

/-- C4: an `offer` from a connection with no room is rejected with the
not-in-room error; an `offer` from a connection whose role is not `sender`
is rejected with the wrong-role error; symmetrically for `answer` and role
`receiver`; in all rejection cases nothing is broadcast and the state is
unchanged.  A successful `offer` broadcasts the message's `file_id` and
`sdp` to every member of the sender's room except the sender. -/
theorem offer_answer_role_enforcement :
    (∀ (s : SState) (c : Nat) (m : Msg), m.type = "offer" →
      (clientOf s c).room = none →
      Client.handleMessage s c m = (s, [(c, errMsg "未加入房间")])) ∧
    (∀ (s : SState) (c : Nat) (m : Msg) (ρ : Nat), m.type = "offer" →
      (clientOf s c).room = some ρ → (clientOf s c).clientType ≠ "sender" →
      Client.handleMessage s c m = (s, [(c, errMsg "只有发送端可以发送Offer")])) ∧
    (∀ (s : SState) (c : Nat) (m : Msg), m.type = "answer" →
      (clientOf s c).room = none →
      Client.handleMessage s c m = (s, [(c, errMsg "未加入房间")])) ∧
    (∀ (s : SState) (c : Nat) (m : Msg) (ρ : Nat), m.type = "answer" →
      (clientOf s c).room = some ρ → (clientOf s c).clientType ≠ "receiver" →
      Client.handleMessage s c m = (s, [(c, errMsg "只有接收端可以发送Answer")])) ∧
    (∀ (s : SState) (c : Nat) (m : Msg) (ρ : Nat), m.type = "offer" →
      (clientOf s c).room = some ρ → (clientOf s c).clientType = "sender" →
      Client.handleMessage s c m =
        (s, ((roomClients s ρ).filter (fun x => x ≠ c)).map (fun x =>
          (x, { type := "offer", roomID := m.roomID, fileID := m.fileID,
                sdp := m.sdp })))) := by
  refine ⟨?_, ?_, ?_, ?_, ?_⟩
  · intro s c m htype hnone
    unfold Client.handleMessage Client.handleOffer
    rw [htype]
    simp [hnone]
  · intro s c m ρ htype hsome hrole
    unfold Client.handleMessage Client.handleOffer
    rw [htype]
    simp [hsome, hrole]
  · intro s c m htype hnone
    unfold Client.handleMessage Client.handleAnswer
    rw [htype]
    simp [hnone]
  · intro s c m ρ htype hsome hrole
    unfold Client.handleMessage Client.handleAnswer
    rw [htype]
    simp [hsome, hrole]
  · intro s c m ρ htype hsome hrole
    unfold Client.handleMessage Client.handleOffer Client.broadcastToRoom
    rw [htype]
    simp [hsome, hrole]

/-- Witness for C4, at a two-member room: the receiver's `offer` is
rejected, the sender's `answer` is rejected, a roomless client's `offer` is
rejected, and the sender's `offer` reaches exactly the receiver. -/
theorem offer_answer_role_enforcement_witness :
    Client.handleMessage ⟨[("a", 0)], [(0, ⟨"a", [1, 2]⟩)], 1,
        [(1, ⟨some 0, "sender"⟩), (2, ⟨some 0, "receiver"⟩)]⟩ 2
        { type := "offer", roomID := "a", sdp := "X" } =
      (⟨[("a", 0)], [(0, ⟨"a", [1, 2]⟩)], 1,
        [(1, ⟨some 0, "sender"⟩), (2, ⟨some 0, "receiver"⟩)]⟩,
        [(2, errMsg "只有发送端可以发送Offer")]) ∧
    Client.handleMessage ⟨[("a", 0)], [(0, ⟨"a", [1, 2]⟩)], 1,
        [(1, ⟨some 0, "sender"⟩), (2, ⟨some 0, "receiver"⟩)]⟩ 1
        { type := "answer", roomID := "a", sdp := "X" } =
      (⟨[("a", 0)], [(0, ⟨"a", [1, 2]⟩)], 1,
        [(1, ⟨some 0, "sender"⟩), (2, ⟨some 0, "receiver"⟩)]⟩,
        [(1, errMsg "只有接收端可以发送Answer")]) ∧
    Client.handleMessage ⟨[("a", 0)], [(0, ⟨"a", [1, 2]⟩)], 1,
        [(1, ⟨some 0, "sender"⟩), (2, ⟨some 0, "receiver"⟩)]⟩ 3
        { type := "offer", roomID := "a", sdp := "X" } =
      (⟨[("a", 0)], [(0, ⟨"a", [1, 2]⟩)], 1,
        [(1, ⟨some 0, "sender"⟩), (2, ⟨some 0, "receiver"⟩)]⟩,
        [(3, errMsg "未加入房间")]) ∧
    Client.handleMessage ⟨[("a", 0)], [(0, ⟨"a", [1, 2]⟩)], 1,
        [(1, ⟨some 0, "sender"⟩), (2, ⟨some 0, "receiver"⟩)]⟩ 1
        { type := "offer", roomID := "a", fileID := "f1", sdp := "QUJD" } =
      (⟨[("a", 0)], [(0, ⟨"a", [1, 2]⟩)], 1,
        [(1, ⟨some 0, "sender"⟩), (2, ⟨some 0, "receiver"⟩)]⟩,
        [(2, { type := "offer", roomID := "a", fileID := "f1", sdp := "QUJD" })]) := by
  refine ⟨?_, ?_, ?_, ?_⟩
  · exact offer_answer_role_enforcement.2.1
      ⟨[("a", 0)], [(0, ⟨"a", [1, 2]⟩)], 1,
        [(1, ⟨some 0, "sender"⟩), (2, ⟨some 0, "receiver"⟩)]⟩ 2
      { type := "offer", roomID := "a", sdp := "X" } 0 rfl rfl (by decide)
  · exact offer_answer_role_enforcement.2.2.2.1
      ⟨[("a", 0)], [(0, ⟨"a", [1, 2]⟩)], 1,
        [(1, ⟨some 0, "sender"⟩), (2, ⟨some 0, "receiver"⟩)]⟩ 1
      { type := "answer", roomID := "a", sdp := "X" } 0 rfl rfl (by decide)
  · exact offer_answer_role_enforcement.1
      ⟨[("a", 0)], [(0, ⟨"a", [1, 2]⟩)], 1,
        [(1, ⟨some 0, "sender"⟩), (2, ⟨some 0, "receiver"⟩)]⟩ 3
      { type := "offer", roomID := "a", sdp := "X" } rfl rfl
  · have h := offer_answer_role_enforcement.2.2.2.2
      ⟨[("a", 0)], [(0, ⟨"a", [1, 2]⟩)], 1,
        [(1, ⟨some 0, "sender"⟩), (2, ⟨some 0, "receiver"⟩)]⟩ 1
      { type := "offer", roomID := "a", fileID := "f1", sdp := "QUJD" } 0 rfl rfl rfl
    simpa using h

/-- C6: the `peer_joined` broadcast of a successful join goes to exactly
the room's members other than the joiner, and an `offer`/`answer`
broadcast goes to exactly the room's members other than the connection
that sent it; the originating connection is never a recipient. -/
theorem broadcast_excludes_origin :
    (∀ (s : SState) (c : Nat) (m : Msg) (ρ : Nat) (room : SRoom),
      m.type = "join_room" → m.roomID ≠ "" →
      SignalingServer.GetRoom s m.roomID = some ρ →
      getA s.roomData ρ = some room →
      ∃ peers : List Nat,
        (Client.handleMessage s c m).2 =
          (c, { type := "room_joined", roomID := m.roomID }) ::
            peers.map (fun x => (x, { type := "peer_joined", roomID := m.roomID })) ∧
        c ∉ peers ∧ (∀ x, x ∈ peers ↔ x ∈ room.clients ∧ x ≠ c)) ∧
    (∀ (s : SState) (c : Nat) (m : Msg) (ρ : Nat), m.type = "offer" →
      (clientOf s c).room = some ρ → (clientOf s c).clientType = "sender" →
      ∃ peers : List Nat,
        (Client.handleMessage s c m).2 =
          peers.map
            (fun x =>
              (x, { type := "offer", roomID := m.roomID, fileID := m.fileID, sdp := m.sdp })) ∧
        c ∉ peers ∧ (∀ x, x ∈ peers ↔ x ∈ roomClients s ρ ∧ x ≠ c)) ∧
    (∀ (s : SState) (c : Nat) (m : Msg) (ρ : Nat), m.type = "answer" →
      (clientOf s c).room = some ρ → (clientOf s c).clientType = "receiver" →
      ∃ peers : List Nat,
        (Client.handleMessage s c m).2 =
          peers.map
            (fun x => (x, { type := "answer", roomID := m.roomID, sdp := m.sdp })) ∧
        c ∉ peers ∧ (∀ x, x ∈ peers ↔ x ∈ roomClients s ρ ∧ x ≠ c)) := by
  refine ⟨?_, ?_, ?_⟩
  · intro s c m ρ room htype hne hreg hroom
    refine ⟨(insertC room.clients c).filter (fun x => x ≠ c), ?_, ?_, ?_⟩
    · unfold Client.handleMessage Client.handleJoinRoom Client.addToRoom
        Client.broadcastToRoom clientOf roomClients
      rw [htype]
      simp [hne, hreg, hroom, getA_setA_self]
    · simp
    · intro x
      simp only [List.mem_filter, mem_insertC, decide_eq_true_eq]
      constructor
      · rintro ⟨hx | rfl, hxc⟩
        · exact ⟨hx, hxc⟩
        · exact absurd rfl hxc
      · exact fun ⟨hx, hxc⟩ => ⟨Or.inl hx, hxc⟩
  · intro s c m ρ htype hsome hrole
    refine ⟨(roomClients s ρ).filter (fun x => x ≠ c), ?_, ?_, ?_⟩
    · unfold Client.handleMessage Client.handleOffer Client.broadcastToRoom
      rw [htype]
      simp [hsome, hrole]
    · simp
    · intro x
      simp [List.mem_filter]
  · intro s c m ρ htype hsome hrole
    refine ⟨(roomClients s ρ).filter (fun x => x ≠ c), ?_, ?_, ?_⟩
    · unfold Client.handleMessage Client.handleAnswer Client.broadcastToRoom
      rw [htype]
      simp [hsome, hrole]
    · simp
    · intro x
      simp [List.mem_filter]

/-- Witness for C6: in a room with members `1` (sender) and `2`
(receiver), client `3` joining broadcasts `peer_joined` to exactly `1` and
`2`; client `1`'s `offer` goes to exactly `2`. -/
theorem broadcast_excludes_origin_witness :
    (∃ peers : List Nat,
      (Client.handleMessage ⟨[("a", 0)], [(0, ⟨"a", [1, 2]⟩)], 1,
          [(1, ⟨some 0, "sender"⟩), (2, ⟨some 0, "receiver"⟩)]⟩ 3
          { type := "join_room", roomID := "a" }).2 =
        (3, { type := "room_joined", roomID := "a" }) ::
          peers.map (fun x => (x, { type := "peer_joined", roomID := "a" })) ∧
      3 ∉ peers ∧ (∀ x, x ∈ peers ↔ x ∈ [1, 2] ∧ x ≠ 3)) ∧
    (∃ peers : List Nat,
      (Client.handleMessage ⟨[("a", 0)], [(0, ⟨"a", [1, 2]⟩)], 1,
          [(1, ⟨some 0, "sender"⟩), (2, ⟨some 0, "receiver"⟩)]⟩ 1
          { type := "offer", roomID := "a", fileID := "f1", sdp := "QUJD" }).2 =
        peers.map
          (fun x =>
            (x, { type := "offer", roomID := "a", fileID := "f1", sdp := "QUJD" })) ∧
      1 ∉ peers ∧
      (∀ x, x ∈ peers ↔
        x ∈ roomClients ⟨[("a", 0)], [(0, ⟨"a", [1, 2]⟩)], 1,
          [(1, ⟨some 0, "sender"⟩), (2, ⟨some 0, "receiver"⟩)]⟩ 0 ∧ x ≠ 1)) := by
  constructor
  · exact broadcast_excludes_origin.1
      ⟨[("a", 0)], [(0, ⟨"a", [1, 2]⟩)], 1,
        [(1, ⟨some 0, "sender"⟩), (2, ⟨some 0, "receiver"⟩)]⟩ 3
      { type := "join_room", roomID := "a" } 0 ⟨"a", [1, 2]⟩
      rfl (by decide) rfl rfl
  · exact broadcast_excludes_origin.2.1
      ⟨[("a", 0)], [(0, ⟨"a", [1, 2]⟩)], 1,
        [(1, ⟨some 0, "sender"⟩), (2, ⟨some 0, "receiver"⟩)]⟩ 1
      { type := "offer", roomID := "a", fileID := "f1", sdp := "QUJD" } 0 rfl rfl rfl

/-- C2 fails as stated: after client `1` creates room `"a"` and client `2`
joins it (role `receiver`), a further `create_room "b"` dispatched by
client `2` succeeds, changes client `2`'s role to `sender`, moves its
`room` pointer to the new room, and leaves it registered in both rooms'
membership sets. -/
theorem role_room_immutability_counterexample :
    let s1 := (Client.handleMessage initSState 1
      { type := "create_room", roomID := "a" }).1
    let s2 := (Client.handleMessage s1 2 { type := "join_room", roomID := "a" }).1
    let s3 := (Client.handleMessage s2 2 { type := "create_room", roomID := "b" }).1
    (clientOf s2 2).clientType = "receiver" ∧ (clientOf s2 2).room = some 0 ∧
    (clientOf s3 2).clientType = "sender" ∧ (clientOf s3 2).room = some 1 ∧
    2 ∈ roomClients s3 0 ∧ 2 ∈ roomClients s3 1 ∧
    getA s3.registry "a" = some 0 ∧ getA s3.registry "b" = some 1 := by
  decide

/-- C2 (amended): only `create_room` and `join_room` dispatches can touch
a connection's role or room — any other message type leaves the entire
broker state unchanged — but a successful `create_room` from a connection
already in a room reassigns its role to `sender` and its room to the new
room while leaving it in the old room's membership set, so the role is not
immutable and the connection ends up in two rooms' member sets. -/
theorem role_room_stability_amended :
    (∀ (s : SState) (c : Nat) (m : Msg),
      m.type ≠ "create_room" → m.type ≠ "join_room" →
      (Client.handleMessage s c m).1 = s) ∧
    (∀ (s : SState) (c : Nat) (m : Msg) (ρ : Nat) (room : SRoom),
      m.type = "create_room" → m.roomID ≠ "" →
      SignalingServer.GetRoom s m.roomID = none →
      (clientOf s c).room = some ρ → getA s.roomData ρ = some room →
      c ∈ room.clients → ρ ≠ s.nextRef →
      (clientOf (Client.handleMessage s c m).1 c).clientType = "sender" ∧
      (clientOf (Client.handleMessage s c m).1 c).room = some s.nextRef ∧
      c ∈ roomClients (Client.handleMessage s c m).1 ρ ∧
      c ∈ roomClients (Client.handleMessage s c m).1 s.nextRef) := by
  constructor
  · intro s c m hcr hjr
    unfold Client.handleMessage
    rw [if_neg hcr, if_neg hjr]
    by_cases ho : m.type = "offer"
    · rw [if_pos ho]
      unfold Client.handleOffer
      cases hr : (clientOf s c).room with
      | none => simp
      | some ρ => split_ifs <;> simp
    · rw [if_neg ho]
      by_cases ha : m.type = "answer"
      · rw [if_pos ha]
        unfold Client.handleAnswer
        cases hr : (clientOf s c).room with
        | none => simp
        | some ρ => split_ifs <;> simp
      · rw [if_neg ha]
  · intro s c m ρ room htype hne hfresh hcr hroom hmem hρ
    have hstep : (Client.handleMessage s c m).1 =
        Client.addToRoom
          { registry := setA s.registry m.roomID s.nextRef,
            roomData := setA s.roomData s.nextRef ⟨m.roomID, []⟩,
            nextRef := s.nextRef + 1,
            clients := setA s.clients c ⟨some s.nextRef, "sender"⟩ }
          s.nextRef c := by
      unfold Client.handleMessage Client.handleCreateRoom SignalingServer.NewRoom
      rw [htype]
      simp [hne, hfresh]
    rw [hstep]
    unfold Client.addToRoom
    rw [show getA (setA s.roomData s.nextRef ⟨m.roomID, []⟩) s.nextRef =
      some ⟨m.roomID, []⟩ from getA_setA_self _ _ _]
    refine ⟨?_, ?_, ?_, ?_⟩
    · simp [clientOf, getA_setA_self]
    · simp [clientOf, getA_setA_self]
    · simp only [roomClients]
      rw [getA_setA_ne _ _ _ _ (by omega), getA_setA_ne _ _ _ _ (by omega), hroom]
      simpa using hmem
    · simp only [roomClients]
      rw [getA_setA_self]
      simp [insertC]

/-- Witness for the amended C2: an `offer` dispatch leaves the broker
state untouched, and client `2` (a receiver already in room `"a"`)
dispatching `create_room "b"` becomes a sender in room reference `1`
while staying in room `"a"`'s member set. -/
theorem role_room_stability_amended_witness :
    (Client.handleMessage ⟨[("a", 0)], [(0, ⟨"a", [1, 2]⟩)], 1,
        [(1, ⟨some 0, "sender"⟩), (2, ⟨some 0, "receiver"⟩)]⟩ 1
        { type := "offer", roomID := "a", sdp := "X" }).1 =
      ⟨[("a", 0)], [(0, ⟨"a", [1, 2]⟩)], 1,
        [(1, ⟨some 0, "sender"⟩), (2, ⟨some 0, "receiver"⟩)]⟩ ∧
    ((clientOf (Client.handleMessage ⟨[("a", 0)], [(0, ⟨"a", [1, 2]⟩)], 1,
        [(1, ⟨some 0, "sender"⟩), (2, ⟨some 0, "receiver"⟩)]⟩ 2
        { type := "create_room", roomID := "b" }).1 2).clientType = "sender" ∧
      (clientOf (Client.handleMessage ⟨[("a", 0)], [(0, ⟨"a", [1, 2]⟩)], 1,
        [(1, ⟨some 0, "sender"⟩), (2, ⟨some 0, "receiver"⟩)]⟩ 2
        { type := "create_room", roomID := "b" }).1 2).room = some 1 ∧
      2 ∈ roomClients (Client.handleMessage ⟨[("a", 0)], [(0, ⟨"a", [1, 2]⟩)], 1,
        [(1, ⟨some 0, "sender"⟩), (2, ⟨some 0, "receiver"⟩)]⟩ 2
        { type := "create_room", roomID := "b" }).1 0 ∧
      2 ∈ roomClients (Client.handleMessage ⟨[("a", 0)], [(0, ⟨"a", [1, 2]⟩)], 1,
        [(1, ⟨some 0, "sender"⟩), (2, ⟨some 0, "receiver"⟩)]⟩ 2
        { type := "create_room", roomID := "b" }).1 1) := by
  constructor
  · exact role_room_stability_amended.1
      ⟨[("a", 0)], [(0, ⟨"a", [1, 2]⟩)], 1,
        [(1, ⟨some 0, "sender"⟩), (2, ⟨some 0, "receiver"⟩)]⟩ 1
      { type := "offer", roomID := "a", sdp := "X" } (by decide) (by decide)
  · exact role_room_stability_amended.2
      ⟨[("a", 0)], [(0, ⟨"a", [1, 2]⟩)], 1,
        [(1, ⟨some 0, "sender"⟩), (2, ⟨some 0, "receiver"⟩)]⟩ 2
      { type := "create_room", roomID := "b" } 0 ⟨"a", [1, 2]⟩
      rfl (by decide) rfl rfl rfl (by decide) (by decide)

/-! ## Claim theorems: sender-side framing -/

theorem payloadChunks_join (content : List Nat) :
    (WebRTCSender.payloadChunks content).flatten = content := by
  rw [WebRTCSender.payloadChunks]
  by_cases h : content = []
  · simp [h]
  · rw [if_neg h]
    rw [List.flatten_cons, payloadChunks_join (content.drop WebRTCSender.maxChunkSize)]
    exact List.take_append_drop _ _
termination_by content.length
decreasing_by
  have hc : 0 < content.length := List.length_pos.mpr h
  simp only [List.length_drop, WebRTCSender.maxChunkSize]
  omega

theorem payloadChunks_length_le (content : List Nat) :
    ∀ chunk ∈ WebRTCSender.payloadChunks content,
      chunk.length ≤ WebRTCSender.maxChunkSize := by
  rw [WebRTCSender.payloadChunks]
  by_cases h : content = []
  · simp [h]
  · rw [if_neg h]
    intro chunk hc
    rcases List.mem_cons.mp hc with hh | ht
    · subst hh
      simp [List.length_take_le]
    · exact payloadChunks_length_le (content.drop WebRTCSender.maxChunkSize) chunk ht
termination_by content.length
decreasing_by
  have hc : 0 < content.length := List.length_pos.mpr h
  simp only [List.length_drop, WebRTCSender.maxChunkSize]
  omega

/-- C7: `sendFile` emits the 4-byte big-endian metadata length, then the
metadata body, then the payload chunks; the payload chunks concatenate (in
send order, with no gaps or reordering) to exactly the file content, and
no payload message exceeds `32 * 1024` bytes. -/
theorem sendFile_framing (metadataJSON content : List Nat) :
    WebRTCSender.sendFile metadataJSON content =
      putUint32BE metadataJSON.length :: metadataJSON ::
        WebRTCSender.payloadChunks content ∧
    (WebRTCSender.payloadChunks content).flatten = content ∧
    ∀ chunk ∈ WebRTCSender.payloadChunks content, chunk.length ≤ 32 * 1024 := by
  exact ⟨rfl, payloadChunks_join content, payloadChunks_length_le content⟩

/-- Witness for C7 at a 5-byte file with a 2-message chunking forced by a
tiny content, exercising the theorem at a concrete input. -/
theorem sendFile_framing_witness :
    (WebRTCSender.payloadChunks [10, 20, 30, 40, 50]).flatten = [10, 20, 30, 40, 50] ∧
    ∀ chunk ∈ WebRTCSender.payloadChunks [10, 20, 30, 40, 50],
      chunk.length ≤ 32 * 1024 := by
  exact ⟨(sendFile_framing [1] [10, 20, 30, 40, 50]).2.1,
    (sendFile_framing [1] [10, 20, 30, 40, 50]).2.2⟩

/-! ## Step lemmas for the receiver parser -/

namespace WebRTCReceiver

theorem handleMessage_state2 (decode : List Nat → Option FileMetadata)
    (r : RecvState) (data : List Nat) (h2 : r.state = 2) :
    handleMessage decode r data = handleState2 r data := by
  unfold handleMessage
  rw [if_neg (by omega), if_neg (by omega)]

theorem handleState2_complete (r : RecvState) (data : List Nat) (md : FileMetadata)
    (ho : r.fileOpen = true) (hc : r.fileClosed = false) (hmd : r.metadata = some md)
    (hpos : 0 < md.fileSize)
    (hreach : md.fileSize ≤ r.totalReceived + data.length) :
    handleState2 r data =
      ({ r with fileContent := r.fileContent ++ data,
                totalReceived := r.totalReceived + data.length,
                fileClosed := true,
                acks := if r.dcOpen then r.acks ++ [ackMessage] else r.acks }, none) := by
  unfold handleState2
  rw [ho, hc]
  simp [hmd, hpos, hreach]

theorem handleState2_incomplete (r : RecvState) (data : List Nat) (md : FileMetadata)
    (ho : r.fileOpen = true) (hc : r.fileClosed = false) (hmd : r.metadata = some md)
    (hpos : 0 < md.fileSize)
    (hshort : ¬ md.fileSize ≤ r.totalReceived + data.length) :
    handleState2 r data =
      ({ r with fileContent := r.fileContent ++ data,
                totalReceived := r.totalReceived + data.length }, none) := by
  unfold handleState2
  rw [ho, hc]
  simp [hmd, hpos, hshort]

theorem handleState2_nonpos (r : RecvState) (data : List Nat) (md : FileMetadata)
    (ho : r.fileOpen = true) (hc : r.fileClosed = false) (hmd : r.metadata = some md)
    (hnpos : ¬ 0 < md.fileSize) :
    handleState2 r data =
      ({ r with fileContent := r.fileContent ++ data,
                totalReceived := r.totalReceived + data.length }, none) := by
  unfold handleState2
  rw [ho, hc]
  simp [hmd, hnpos]

theorem handleState2_closed (r : RecvState) (data : List Nat)
    (ho : r.fileOpen = true) (hc : r.fileClosed = true) :
    handleState2 r data = (r, some "写入文件失败") := by
  unfold handleState2
  rw [ho, hc]
  simp

theorem feedAll_nil (decode : List Nat → Option FileMetadata) (r : RecvState) :
    feedAll decode r [] = r := rfl

theorem feedAll_cons (decode : List Nat → Option FileMetadata) (r : RecvState)
    (m : List Nat) (t : List (List Nat)) :
    feedAll decode r (m :: t) = feedAll decode (handleMessage decode r m).1 t := rfl

end WebRTCReceiver

/-! ## Claim theorems: receiver completion behaviour -/

/-- C9: on the payload message that brings the cumulative byte count up to
the (positive) declared file size, the receiver closes the destination file
and appends exactly one acknowledgment — the JSON text
`\x7b"type":"file_received"\x7d` — over the still-open data channel; and no
later message can ever produce another acknowledgment. -/
theorem receive_complete_closes_and_acks
    (decode : List Nat → Option FileMetadata) (r : RecvState) (data : List Nat)
    (md : FileMetadata)
    (h2 : r.state = 2) (ho : r.fileOpen = true) (hc : r.fileClosed = false)
    (hdc : r.dcOpen = true) (hmd : r.metadata = some md)
    (hpos : 0 < md.fileSize)
    (hreach : md.fileSize ≤ r.totalReceived + data.length) :
    (WebRTCReceiver.handleMessage decode r data).1.fileClosed = true ∧
    (WebRTCReceiver.handleMessage decode r data).1.acks = r.acks ++ [ackMessage] ∧
    ∀ data2,
      (WebRTCReceiver.handleMessage decode
        (WebRTCReceiver.handleMessage decode r data).1 data2).1.acks =
      (WebRTCReceiver.handleMessage decode r data).1.acks := by
  rw [WebRTCReceiver.handleMessage_state2 decode r data h2,
    WebRTCReceiver.handleState2_complete r data md ho hc hmd hpos hreach]
  refine ⟨rfl, by simp [hdc], ?_⟩
  intro data2
  rw [WebRTCReceiver.handleMessage_state2 _ _ _ (by simpa using h2),
    WebRTCReceiver.handleState2_closed _ _ (by simpa using ho) rfl]

/-- Witness for C9: a receiver two bytes short of a 3-byte file gets a
final 2-byte message (total 4 ≥ 3): the file closes and exactly one
acknowledgment is recorded. -/
theorem receive_complete_closes_and_acks_witness :
    ((WebRTCReceiver.handleMessage (fun _ => none)
      ⟨2, 5, [], some ⟨"f", 3⟩, true, false, [7, 8], 2, true, []⟩ [9, 9]).1.fileClosed
        = true) ∧
    ((WebRTCReceiver.handleMessage (fun _ => none)
      ⟨2, 5, [], some ⟨"f", 3⟩, true, false, [7, 8], 2, true, []⟩ [9, 9]).1.acks
        = [] ++ [ackMessage]) := by
  have h := receive_complete_closes_and_acks (fun _ => none)
    ⟨2, 5, [], some ⟨"f", 3⟩, true, false, [7, 8], 2, true, []⟩ [9, 9] ⟨"f", 3⟩
    rfl rfl rfl rfl rfl (by decide) (by decide)
  exact ⟨h.1, h.2.1⟩

/-- C10: in the receiving-payload state every byte of an incoming message
is written before the completion check — the destination is never
truncated at the declared size, so surplus bytes are all written and the
accumulated count then exceeds the declared size; and with a declared
`fileSize` of `0` the completion branch (close + acknowledgment) is never
taken, over any sequence of further messages. -/
theorem payload_never_truncated_zero_never_completes :
    (∀ (decode : List Nat → Option FileMetadata) (r : RecvState)
        (data : List Nat) (md : FileMetadata),
      r.state = 2 → r.fileOpen = true → r.fileClosed = false →
      r.metadata = some md →
      (WebRTCReceiver.handleMessage decode r data).1.fileContent =
        r.fileContent ++ data ∧
      (WebRTCReceiver.handleMessage decode r data).1.totalReceived =
        r.totalReceived + data.length ∧
      (md.fileSize < r.totalReceived + data.length →
        md.fileSize < (WebRTCReceiver.handleMessage decode r data).1.totalReceived)) ∧
    (∀ (decode : List Nat → Option FileMetadata) (r : RecvState)
        (msgs : List (List Nat)) (md : FileMetadata),
      r.state = 2 → r.fileOpen = true → r.fileClosed = false →
      r.metadata = some md → md.fileSize = 0 →
      (WebRTCReceiver.feedAll decode r msgs).fileClosed = false ∧
      (WebRTCReceiver.feedAll decode r msgs).acks = r.acks) := by
  constructor
  · intro decode r data md h2 ho hc hmd
    rw [WebRTCReceiver.handleMessage_state2 decode r data h2]
    by_cases hpos : 0 < md.fileSize
    · by_cases hreach : md.fileSize ≤ r.totalReceived + data.length
      · rw [WebRTCReceiver.handleState2_complete r data md ho hc hmd hpos hreach]
        exact ⟨rfl, rfl, fun h => h⟩
      · rw [WebRTCReceiver.handleState2_incomplete r data md ho hc hmd hpos hreach]
        exact ⟨rfl, rfl, fun h => h⟩
    · rw [WebRTCReceiver.handleState2_nonpos r data md ho hc hmd hpos]
      exact ⟨rfl, rfl, fun h => h⟩
  · intro decode r msgs md h2 ho hc hmd hzero
    induction msgs generalizing r with
    | nil => exact ⟨hc, rfl⟩
    | cons m t ih =>
      rw [WebRTCReceiver.feedAll_cons,
        WebRTCReceiver.handleMessage_state2 decode r m h2,
        WebRTCReceiver.handleState2_nonpos r m md ho hc hmd (by omega)]
      exact ih _ (by simpa using h2) (by simpa using ho) (by simpa using hc)
        (by simpa using hmd)

/-- Witness for C10: with declared size 3 and 4 payload bytes delivered,
all 4 bytes land in the destination and the count exceeds the declared
size; with declared size 0, two further messages never close the file. -/
theorem payload_never_truncated_zero_never_completes_witness :
    ((WebRTCReceiver.handleMessage (fun _ => none)
        ⟨2, 5, [], some ⟨"f", 3⟩, true, false, [], 0, true, []⟩
        [1, 2, 3, 4]).1.fileContent = [] ++ [1, 2, 3, 4] ∧
      (3 : Int) < (WebRTCReceiver.handleMessage (fun _ => none)
        ⟨2, 5, [], some ⟨"f", 3⟩, true, false, [], 0, true, []⟩
        [1, 2, 3, 4]).1.totalReceived) ∧
    ((WebRTCReceiver.feedAll (fun _ => none)
        ⟨2, 5, [], some ⟨"f", 0⟩, true, false, [], 0, true, []⟩
        [[1, 2], [3]]).fileClosed = false ∧
      (WebRTCReceiver.feedAll (fun _ => none)
        ⟨2, 5, [], some ⟨"f", 0⟩, true, false, [], 0, true, []⟩
        [[1, 2], [3]]).acks = []) := by
  constructor
  · have h := payload_never_truncated_zero_never_completes.1 (fun _ => none)
      ⟨2, 5, [], some ⟨"f", 3⟩, true, false, [], 0, true, []⟩ [1, 2, 3, 4] ⟨"f", 3⟩
      rfl rfl rfl rfl
    exact ⟨h.1, h.2.2 (by decide)⟩
  · exact payload_never_truncated_zero_never_completes.2 (fun _ => none)
      ⟨2, 5, [], some ⟨"f", 0⟩, true, false, [], 0, true, []⟩ [[1, 2], [3]] ⟨"f", 0⟩
      rfl rfl rfl rfl rfl

/-- C8 (scenario D): a 37-byte metadata body delivered as two low-level
messages — the 4-byte length prefix plus the first 10 metadata bytes, then
the remaining 27 metadata bytes plus the first payload chunk — drives the
parser through states 0, 1 and 2 in order, decodes exactly the 37 metadata
bytes, and hands the trailing payload bytes to the payload state without
losing or duplicating a byte. -/
theorem scenario_D (decode : List Nat → Option FileMetadata)
    (meta chunk : List Nat) (md : FileMetadata)
    (hlen : meta.length = 37) (hdec : decode meta = some md) :
    initRecvState.state = 0 ∧
    ((WebRTCReceiver.handleMessage decode initRecvState
        (putUint32BE 37 ++ meta.take 10)).1.state = 1 ∧
      (WebRTCReceiver.handleMessage decode initRecvState
        (putUint32BE 37 ++ meta.take 10)).1.metadataLen = 37 ∧
      (WebRTCReceiver.handleMessage decode initRecvState
        (putUint32BE 37 ++ meta.take 10)).1.metadataBuf = meta.take 10) ∧
    ((WebRTCReceiver.handleMessage decode
        (WebRTCReceiver.handleMessage decode initRecvState
          (putUint32BE 37 ++ meta.take 10)).1
        (meta.drop 10 ++ chunk)).1.state = 2 ∧
      (WebRTCReceiver.handleMessage decode
        (WebRTCReceiver.handleMessage decode initRecvState
          (putUint32BE 37 ++ meta.take 10)).1
        (meta.drop 10 ++ chunk)).1.metadata = some md ∧
      (WebRTCReceiver.handleMessage decode
        (WebRTCReceiver.handleMessage decode initRecvState
          (putUint32BE 37 ++ meta.take 10)).1
        (meta.drop 10 ++ chunk)).1.fileContent = chunk ∧
      (WebRTCReceiver.handleMessage decode
        (WebRTCReceiver.handleMessage decode initRecvState
          (putUint32BE 37 ++ meta.take 10)).1
        (meta.drop 10 ++ chunk)).1.totalReceived = (chunk.length : Int)) := by
  have hput : putUint32BE 37 = [0, 0, 0, 37] := rfl
  have ht10 : (meta.take 10).length = 10 := by simp [hlen]
  have step1 : WebRTCReceiver.handleMessage decode initRecvState
      (putUint32BE 37 ++ meta.take 10) =
      (⟨1, 37, meta.take 10, none, false, false, [], 0, true, []⟩, none) := by
    rw [hput]
    unfold WebRTCReceiver.handleMessage WebRTCReceiver.handleState0
      WebRTCReceiver.handleState1
    simp [initRecvState, beUint32, ht10]
  rw [step1]
  refine ⟨rfl, ⟨rfl, rfl, rfl⟩, ?_⟩
  have hbuf : meta.take 10 ++ (meta.drop 10 ++ chunk) = meta ++ chunk := by
    rw [← List.append_assoc, List.take_append_drop]
  have htk : (meta ++ chunk).take 37 = meta := by
    rw [← hlen]
    exact List.take_left meta chunk
  have hdr : (meta ++ chunk).drop 37 = chunk := by
    rw [← hlen]
    exact List.drop_left meta chunk
  have hblen : (meta ++ chunk).length = 37 + chunk.length := by simp [hlen]
  unfold WebRTCReceiver.handleMessage WebRTCReceiver.handleState1
  rw [if_neg (by simp)]
  simp only [if_true]
  simp only [hbuf, hblen]
  rw [if_pos (by omega)]
  simp only [htk, hdec]
  by_cases hch : chunk = []
  · subst hch
    rw [if_neg (by simp)]
    exact ⟨rfl, rfl, rfl, rfl⟩
  · have hpos : 0 < chunk.length := List.length_pos.mpr hch
    rw [if_pos (by omega)]
    rw [show (meta ++ chunk).drop 37 = chunk from hdr]
    unfold WebRTCReceiver.handleState2
    simp only [Bool.not_true, if_false]
    split_ifs <;> simp_all

/-- Witness for C8, with a concrete 37-byte metadata body (37 copies of
byte `7`), a decoder recognising exactly it, and payload chunk
`[1, 2, 3]`. -/
theorem scenario_D_witness :
    (WebRTCReceiver.handleMessage
      (fun bs => if bs = List.replicate 37 7 then some ⟨"d", 100⟩ else none)
      initRecvState (putUint32BE 37 ++ (List.replicate 37 7).take 10)).1.state = 1 ∧
    (WebRTCReceiver.handleMessage
      (fun bs => if bs = List.replicate 37 7 then some ⟨"d", 100⟩ else none)
      (WebRTCReceiver.handleMessage
        (fun bs => if bs = List.replicate 37 7 then some ⟨"d", 100⟩ else none)
        initRecvState (putUint32BE 37 ++ (List.replicate 37 7).take 10)).1
      ((List.replicate 37 7).drop 10 ++ [1, 2, 3])).1.fileContent = [1, 2, 3] ∧
    (WebRTCReceiver.handleMessage
      (fun bs => if bs = List.replicate 37 7 then some ⟨"d", 100⟩ else none)
      (WebRTCReceiver.handleMessage
        (fun bs => if bs = List.replicate 37 7 then some ⟨"d", 100⟩ else none)
        initRecvState (putUint32BE 37 ++ (List.replicate 37 7).take 10)).1
      ((List.replicate 37 7).drop 10 ++ [1, 2, 3])).1.totalReceived =
      (([1, 2, 3] : List Nat).length : Int) := by
  have h := scenario_D
    (fun bs => if bs = List.replicate 37 7 then some ⟨"d", 100⟩ else none)
    (List.replicate 37 7) [1, 2, 3] ⟨"d", 100⟩ (by decide) (by decide)
  exact ⟨h.2.1.1, h.2.2.2.2.1, h.2.2.2.2.2⟩

/-! ## The codec round trip (C1)

`wireStream` is the byte stream the sender frames: length prefix, then
metadata body, then payload.  `RecvInv` is the parser invariant relating
the receiver state to the number `k` of stream bytes consumed so far. -/

def wireStream (meta payload : List Nat) : List Nat :=
  putUint32BE meta.length ++ (meta ++ payload)

/-- Receiver state after the whole metadata body: `j` payload bytes have
been written; the file is closed exactly when a positive payload has been
fully received. -/
def Phase2 (payload : List Nat) (md : FileMetadata) (j : Nat) (r : RecvState) : Prop :=
  r.state = 2 ∧ r.metadata = some md ∧ r.fileOpen = true ∧
  r.fileContent = payload.take j ∧ r.totalReceived = (j : Int) ∧
  (r.fileClosed = true ↔ 0 < payload.length ∧ j = payload.length)

/-- Parser invariant after consuming `k ≥ 4` bytes of the wire stream. -/
def RecvInv (meta payload : List Nat) (md : FileMetadata) (k : Nat)
    (r : RecvState) : Prop :=
  (4 ≤ k ∧ k < 4 + meta.length ∧ r.state = 1 ∧ r.metadataLen = meta.length ∧
    r.metadataBuf = meta.take (k - 4) ∧ r.totalReceived = 0) ∨
  (4 + meta.length ≤ k ∧ k ≤ 4 + meta.length + payload.length ∧
    Phase2 payload md (k - 4 - meta.length) r)

theorem phase2_step (payload : List Nat) (md : FileMetadata)
    (hsz : md.fileSize = (payload.length : Int))
    (j L : Nat) (r : RecvState) (hjL : j + L ≤ payload.length)
    (h : Phase2 payload md j r) :
    Phase2 payload md (j + L)
      (WebRTCReceiver.handleState2 r ((payload.drop j).take L)).1 := by
  obtain ⟨h2, hmd, ho, hcont, htot, hcl⟩ := h
  have hdlen : ((payload.drop j).take L).length = L := by
    simp only [List.length_take, List.length_drop]
    omega
  by_cases hclosed : r.fileClosed = true
  · obtain ⟨hp, hjp⟩ := hcl.mp hclosed
    have hL0 : L = 0 := by omega
    rw [WebRTCReceiver.handleState2_closed r _ ho hclosed]
    exact ⟨h2, hmd, ho, by rw [hcont]; congr 1; omega, by rw [htot]; congr 1; omega,
      by rw [hcl]; constructor <;> exact fun ⟨a, b⟩ => ⟨a, by omega⟩⟩
  · have hcf : r.fileClosed = false := by
      cases hcb : r.fileClosed
      · rfl
      · exact absurd hcb hclosed
    by_cases hp : 0 < md.fileSize
    · have hppos : 0 < payload.length := by
        rw [hsz] at hp
        exact_mod_cast hp
      by_cases hreach : md.fileSize ≤ r.totalReceived + ((payload.drop j).take L).length
      · have hfull : j + L = payload.length := by
          rw [hsz, htot, hdlen] at hreach
          have : payload.length ≤ j + L := by exact_mod_cast hreach
          omega
        rw [WebRTCReceiver.handleState2_complete r _ md ho hcf hmd hp hreach]
        refine ⟨h2, hmd, ho, ?_, ?_, ?_⟩
        · simp only [hcont, hdlen]
          exact (List.take_add payload j L).symm
        · simp only [htot, hdlen]
          push_cast
          ring
        · simp only
          constructor
          · intro _
            exact ⟨hppos, hfull⟩
          · intro _
            trivial
      · rw [WebRTCReceiver.handleState2_incomplete r _ md ho hcf hmd hp hreach]
        have hnotfull : ¬ (j + L = payload.length) := by
          intro hfull
          apply hreach
          rw [hsz, htot, hdlen]
          have : payload.length ≤ j + L := by omega
          exact_mod_cast this
        refine ⟨h2, hmd, ho, ?_, ?_, ?_⟩
        · simp only [hcont, hdlen]
          exact (List.take_add payload j L).symm
        · simp only [htot, hdlen]
          push_cast
          ring
        · simp only [hcf]
          constructor
          · intro hcontr
            exact absurd hcontr (by simp)
          · rintro ⟨_, hfull⟩
            exact absurd hfull hnotfull
    · have hp0 : payload.length = 0 := by
        rw [hsz] at hp
        omega
      rw [WebRTCReceiver.handleState2_nonpos r _ md ho hcf hmd hp]
      refine ⟨h2, hmd, ho, ?_, ?_, ?_⟩
      · simp only [hcont, hdlen]
        exact (List.take_add payload j L).symm
      · simp only [htot, hdlen]
        push_cast
        ring
      · simp only [hcf]
        constructor
        · intro hcontr
          exact absurd hcontr (by simp)
        · rintro ⟨hpos, _⟩
          omega

theorem phase1_step (decode : List Nat → Option FileMetadata)
    (meta payload : List Nat) (md : FileMetadata)
    (hdec : decode meta = some md) (hsz : md.fileSize = (payload.length : Int))
    (j L : Nat) (r : RecvState)
    (hj : j < meta.length) (hjL : j + L ≤ meta.length + payload.length)
    (h1 : r.state = 1) (hml : r.metadataLen = meta.length)
    (hbuf : r.metadataBuf = meta.take j) (htot : r.totalReceived = 0) :
    RecvInv meta payload md (4 + (j + L))
      (WebRTCReceiver.handleState1 decode r
        (((meta ++ payload).drop j).take L)).1 := by
  have hdlen : (((meta ++ payload).drop j).take L).length = L := by
    simp only [List.length_take, List.length_drop, List.length_append]
    omega
  have hbufeq : r.metadataBuf ++ ((meta ++ payload).drop j).take L =
      (meta ++ payload).take (j + L) := by
    rw [hbuf, List.take_add]
    congr 1
    exact (List.take_append_of_le_length (le_of_lt hj)).symm
  have hbuflen : ((meta ++ payload).take (j + L)).length = j + L := by
    simp only [List.length_take, List.length_append]
    omega
  unfold WebRTCReceiver.handleState1
  rw [hbufeq, hml]
  dsimp only
  rw [hbuflen]
  by_cases hfit : meta.length ≤ j + L
  · rw [if_pos hfit]
    have htkm : ((meta ++ payload).take (j + L)).take meta.length = meta := by
      rw [List.take_take, min_eq_left hfit]
      rw [show (meta ++ payload).take meta.length = meta from List.take_left meta payload]
    rw [htkm, hdec]
    dsimp only
    by_cases hmore : meta.length < j + L
    · rw [if_pos hmore]
      have hdrm : ((meta ++ payload).take (j + L)).drop meta.length =
          (payload.drop 0).take (j + L - meta.length) := by
        rw [List.drop_take, List.drop_left, List.drop_zero]
      rw [hdrm]
      have hstep := phase2_step payload md hsz 0 (j + L - meta.length)
        { r with metadataLen := meta.length,
                 metadataBuf := (meta ++ payload).take (j + L), metadata := some md,
                 fileOpen := true, fileClosed := false, fileContent := [], state := 2 }
        (by omega)
        ⟨rfl, rfl, rfl, by simp, by simpa using htot, by simp; omega⟩
      right
      refine ⟨by omega, by omega, ?_⟩
      have hk : 4 + (j + L) - 4 - meta.length = 0 + (j + L - meta.length) := by omega
      rw [hk]
      exact hstep
    · rw [if_neg hmore]
      right
      have hjLm : j + L = meta.length := by omega
      refine ⟨by omega, by omega, ?_, ?_, ?_, ?_, ?_, ?_⟩
      · rfl
      · rfl
      · rfl
      · simp only
        have : 4 + (j + L) - 4 - meta.length = 0 := by omega
        rw [this]
        simp
      · simp only
        have : 4 + (j + L) - 4 - meta.length = 0 := by omega
        rw [this]
        simpa using htot
      · simp only
        constructor
        · intro hcontr
          exact absurd hcontr (by simp)
        · rintro ⟨hpos, hfull⟩
          omega
  · rw [if_neg hfit]
    left
    refine ⟨by omega, by omega, by simp [h1], by simp, ?_, by simpa using htot⟩
    simp only
    rw [List.take_append_of_le_length (by omega)]
    congr 1
    omega

theorem wireStream_length (meta payload : List Nat) :
    (wireStream meta payload).length = 4 + (meta.length + payload.length) := by
  simp [wireStream, putUint32BE]
  omega

theorem wireStream_drop (meta payload : List Nat) (k : Nat) (h4 : 4 ≤ k) :
    (wireStream meta payload).drop k = (meta ++ payload).drop (k - 4) := by
  unfold wireStream
  rw [List.drop_append_eq_append_drop,
    List.drop_eq_nil_of_le (by rw [putUint32BE_length]; omega),
    putUint32BE_length]
  rfl

theorem append_drop_of_ge (l1 l2 : List Nat) (n : Nat) (h : l1.length ≤ n) :
    (l1 ++ l2).drop n = l2.drop (n - l1.length) := by
  rw [List.drop_append_eq_append_drop, List.drop_eq_nil_of_le h]
  rfl

theorem beUint32_take (l : List Nat) (L : Nat) (h4 : 4 ≤ L) :
    beUint32 (l.take L) = beUint32 l := by
  unfold beUint32
  simp only [List.getD_eq_getElem?_getD, List.getElem?_take]
  rw [if_pos (by omega : (0 : Nat) < L), if_pos (by omega : (1 : Nat) < L),
    if_pos (by omega : (2 : Nat) < L), if_pos (by omega : (3 : Nat) < L)]

theorem recvInv_first_step (decode : List Nat → Option FileMetadata)
    (meta payload : List Nat) (md : FileMetadata)
    (hdec : decode meta = some md) (hsz : md.fileSize = (payload.length : Int))
    (hm32 : meta.length < 4294967296) (hm0 : 0 < meta.length)
    (L : Nat) (h4 : 4 ≤ L) (hL : L ≤ (wireStream meta payload).length) :
    RecvInv meta payload md L
      (WebRTCReceiver.handleMessage decode initRecvState
        ((wireStream meta payload).take L)).1 := by
  have htotlen := wireStream_length meta payload
  have hdlen : ((wireStream meta payload).take L).length = L := by
    simp only [List.length_take]
    omega
  have hbe : beUint32 ((wireStream meta payload).take L) = meta.length := by
    rw [beUint32_take _ _ h4]
    exact beUint32_putUint32BE meta.length (meta ++ payload) hm32
  rw [show WebRTCReceiver.handleMessage decode initRecvState
        ((wireStream meta payload).take L) =
      WebRTCReceiver.handleState0 decode initRecvState
        ((wireStream meta payload).take L) from rfl]
  unfold WebRTCReceiver.handleState0
  rw [hdlen, if_pos h4, hbe]
  by_cases h4' : 4 < L
  · rw [if_pos h4']
    have hdrop4 : ((wireStream meta payload).take L).drop 4 =
        ((meta ++ payload).drop 0).take (L - 4) := by
      rw [List.drop_take, wireStream_drop meta payload 4 (by omega)]
    rw [hdrop4]
    have hstep := phase1_step decode meta payload md hdec hsz 0 (L - 4)
      { initRecvState with metadataLen := meta.length, metadataBuf := [], state := 1 }
      hm0 (by omega) rfl rfl (by simp [initRecvState]) rfl
    have hk : 4 + (0 + (L - 4)) = L := by omega
    rw [hk] at hstep
    exact hstep
  · rw [if_neg h4']
    have hL4 : L = 4 := by omega
    left
    refine ⟨by omega, by omega, rfl, rfl, ?_, rfl⟩
    simp only
    rw [hL4]
    simp [initRecvState]

theorem recvInv_step (decode : List Nat → Option FileMetadata)
    (meta payload : List Nat) (md : FileMetadata)
    (hdec : decode meta = some md) (hsz : md.fileSize = (payload.length : Int))
    (k L : Nat) (r : RecvState)
    (hInv : RecvInv meta payload md k r)
    (hkL : k + L ≤ 4 + meta.length + payload.length) :
    RecvInv meta payload md (k + L)
      (WebRTCReceiver.handleMessage decode r
        (((wireStream meta payload).drop k).take L)).1 := by
  rcases hInv with ⟨h4, hup, h1, hml, hbuf, htot⟩ | ⟨hlo, hup, hph⟩
  · have hmsg : WebRTCReceiver.handleMessage decode r
        (((wireStream meta payload).drop k).take L) =
        WebRTCReceiver.handleState1 decode r
          (((wireStream meta payload).drop k).take L) := by
      unfold WebRTCReceiver.handleMessage
      rw [if_neg (by omega), if_pos h1]
    rw [hmsg, wireStream_drop meta payload k h4]
    have hstep := phase1_step decode meta payload md hdec hsz (k - 4) L r
      (by omega) (by omega) h1 hml hbuf htot
    have hk : 4 + (k - 4 + L) = k + L := by omega
    rwa [hk] at hstep
  · obtain ⟨h2, hmd, ho, hcont, htot, hcl⟩ := hph
    have hmsg : WebRTCReceiver.handleMessage decode r
        (((wireStream meta payload).drop k).take L) =
        WebRTCReceiver.handleState2 r
          (((wireStream meta payload).drop k).take L) := by
      unfold WebRTCReceiver.handleMessage
      rw [if_neg (by omega), if_neg (by omega)]
    have hdropk : (wireStream meta payload).drop k =
        payload.drop (k - 4 - meta.length) := by
      rw [wireStream_drop meta payload k (by omega),
        append_drop_of_ge meta payload (k - 4) (by omega)]
    rw [hmsg, hdropk]
    have hstep := phase2_step payload md hsz (k - 4 - meta.length) L r
      (by omega) ⟨h2, hmd, ho, hcont, htot, hcl⟩
    right
    refine ⟨by omega, by omega, ?_⟩
    have hk : k + L - 4 - meta.length = k - 4 - meta.length + L := by omega
    rwa [hk]

theorem recvInv_feed (decode : List Nat → Option FileMetadata)
    (meta payload : List Nat) (md : FileMetadata)
    (hdec : decode meta = some md) (hsz : md.fileSize = (payload.length : Int))
    (msgs : List (List Nat)) :
    ∀ (k : Nat) (r : RecvState),
    RecvInv meta payload md k r →
    msgs.flatten = (wireStream meta payload).drop k →
    RecvInv meta payload md (4 + meta.length + payload.length)
      (WebRTCReceiver.feedAll decode r msgs) := by
  induction msgs with
  | nil =>
    intro k r hInv hjoin
    have hk_le : 4 + meta.length + payload.length ≤ k := by
      have hnil : (wireStream meta payload).drop k = [] := hjoin.symm
      have := List.drop_eq_nil_iff.mp hnil
      rw [wireStream_length] at this
      omega
    have hk_ge : k ≤ 4 + meta.length + payload.length := by
      rcases hInv with ⟨_, hup, _⟩ | ⟨_, hup, _⟩ <;> omega
    have hk : k = 4 + meta.length + payload.length := by omega
    rw [WebRTCReceiver.feedAll_nil]
    rwa [hk] at hInv
  | cons m1 t ih =>
    intro k r hInv hjoin
    have hk4 : 4 ≤ k := by
      rcases hInv with ⟨h4, _⟩ | ⟨hlo, _⟩ <;> omega
    have hk_ge : k ≤ 4 + meta.length + payload.length := by
      rcases hInv with ⟨_, hup, _⟩ | ⟨_, hup, _⟩ <;> omega
    rw [List.flatten_cons] at hjoin
    have hm1 : m1 = ((wireStream meta payload).drop k).take m1.length := by
      rw [← hjoin, List.take_left]
    have hlen_le : k + m1.length ≤ 4 + meta.length + payload.length := by
      have h1 : m1.length ≤ ((wireStream meta payload).drop k).length := by
        rw [← hjoin]
        simp
      rw [List.length_drop, wireStream_length] at h1
      omega
    have hstep := recvInv_step decode meta payload md hdec hsz k m1.length r hInv hlen_le
    rw [WebRTCReceiver.feedAll_cons]
    have htail : t.flatten = (wireStream meta payload).drop (k + m1.length) := by
      have : ((wireStream meta payload).drop k).drop m1.length =
          (wireStream meta payload).drop (k + m1.length) := by
        rw [List.drop_drop]
      rw [← this, ← hjoin, List.drop_left]
    have := ih (k + m1.length) _ (by rwa [← hm1] at hstep) htail
    exact this

/-- C1 (amended): the codec round trip holds for every partition of the
framed stream into low-level messages whose FIRST message carries at least
the whole 4-byte length prefix: feeding the messages in order through the
receiver parser reproduces the payload exactly in the destination and the
final accumulated byte count equals the payload length.  (The bounds on
`meta.length` and `payload.length` are the `uint32` length-prefix frame
limit and the `int64` range within which the `Int` model of
`totalReceived` is exact.) -/
theorem codec_roundtrip_prefix_in_first_message
    (decode : List Nat → Option FileMetadata)
    (meta payload : List Nat) (md : FileMetadata) (msgs : List (List Nat))
    (hdec : decode meta = some md)
    (hsz : md.fileSize = (payload.length : Int))
    (hm32 : meta.length < 4294967296)
    (hm0 : 0 < meta.length)
    (hp63 : payload.length < 9223372036854775808)
    (hjoin : msgs.flatten = wireStream meta payload)
    (hfirst : 4 ≤ (msgs.headD []).length) :
    (WebRTCReceiver.feedAll decode initRecvState msgs).fileContent = payload ∧
    (WebRTCReceiver.feedAll decode initRecvState msgs).totalReceived =
      (payload.length : Int) := by
  cases msgs with
  | nil =>
    exfalso
    have := congrArg List.length hjoin
    rw [wireStream_length] at this
    simp at this
    omega
  | cons m1 t =>
    rw [List.flatten_cons] at hjoin
    have h4 : 4 ≤ m1.length := by simpa using hfirst
    have hm1 : m1 = (wireStream meta payload).take m1.length := by
      rw [← hjoin, List.take_left]
    have hLle : m1.length ≤ (wireStream meta payload).length := by
      rw [← hjoin]
      simp
    have hstep := recvInv_first_step decode meta payload md hdec hsz hm32 hm0
      m1.length h4 hLle
    rw [← hm1] at hstep
    have htail : t.flatten = (wireStream meta payload).drop m1.length := by
      rw [← hjoin, List.drop_left]
    have hres := recvInv_feed decode meta payload md hdec hsz t m1.length _ hstep htail
    rw [WebRTCReceiver.feedAll_cons]
    rcases hres with ⟨_, hup, _⟩ | ⟨_, _, _, _, _, hcont, htot, _⟩
    · omega
    · constructor
      · rw [hcont]
        have : 4 + meta.length + payload.length - 4 - meta.length =
            payload.length := by omega
        rw [this, List.take_length]
      · rw [htot]
        congr 1
        omega

/-- C1 fails as stated: with a 5-byte metadata body and 3-byte payload, the
partition that splits the 4-byte length prefix across the first two
low-level messages (`[0,0]` then the rest) is a valid partition of the
framed stream, yet the parser silently drops the 2-byte fragment in the
awaiting-length state, misreads the length prefix, and reproduces neither
the payload nor the correct byte count. -/
theorem codec_roundtrip_counterexample :
    ([[0, 0], [0, 5, 1, 2, 3, 4, 5, 10, 20, 30]] : List (List Nat)).flatten =
      wireStream [1, 2, 3, 4, 5] [10, 20, 30] ∧
    (fun bs => if bs = [1, 2, 3, 4, 5] then some (⟨"f", 3⟩ : FileMetadata)
      else none) [1, 2, 3, 4, 5] = some ⟨"f", 3⟩ ∧
    (⟨"f", 3⟩ : FileMetadata).fileSize = (([10, 20, 30] : List Nat).length : Int) ∧
    (WebRTCReceiver.feedAll
      (fun bs => if bs = [1, 2, 3, 4, 5] then some ⟨"f", 3⟩ else none)
      initRecvState
      [[0, 0], [0, 5, 1, 2, 3, 4, 5, 10, 20, 30]]).fileContent ≠ [10, 20, 30] ∧
    (WebRTCReceiver.feedAll
      (fun bs => if bs = [1, 2, 3, 4, 5] then some ⟨"f", 3⟩ else none)
      initRecvState
      [[0, 0], [0, 5, 1, 2, 3, 4, 5, 10, 20, 30]]).totalReceived ≠
      (([10, 20, 30] : List Nat).length : Int) := by
  decide

/-- Witness for the amended C1: the same stream delivered with the whole
prefix in the first message (and the metadata and payload split across
message boundaries) reproduces the payload and the byte count. -/
theorem codec_roundtrip_prefix_in_first_message_witness :
    (WebRTCReceiver.feedAll
      (fun bs => if bs = [1, 2, 3, 4, 5] then some ⟨"f", 3⟩ else none)
      initRecvState
      [[0, 0, 0, 5, 1], [2, 3, 4], [5, 10], [20, 30]]).fileContent =
      [10, 20, 30] ∧
    (WebRTCReceiver.feedAll
      (fun bs => if bs = [1, 2, 3, 4, 5] then some ⟨"f", 3⟩ else none)
      initRecvState
      [[0, 0, 0, 5, 1], [2, 3, 4], [5, 10], [20, 30]]).totalReceived =
      (([10, 20, 30] : List Nat).length : Int) := by
  exact codec_roundtrip_prefix_in_first_message
    (fun bs => if bs = [1, 2, 3, 4, 5] then some ⟨"f", 3⟩ else none)
    [1, 2, 3, 4, 5] [10, 20, 30] ⟨"f", 3⟩
    [[0, 0, 0, 5, 1], [2, 3, 4], [5, 10], [20, 30]]
    (by decide) (by decide) (by decide) (by decide) (by decide) (by decide)
    (by decide)
